import Mathlib

/-!
Verification of the jiming pub-key-publish service (src/src/main.rs).

The service is a three-route HTTP application: a static form, a publish
handler that validates a Base64 Ed25519 public key plus an optional note and
inserts a row into the pub_keys table, and a record-display handler that
looks a record up by its id and renders an HTML page.  Below we embed the
validation logic, the two stateful handlers (store passed explicitly, store
outcomes made explicit parameters), the UUID path-parameter check and the
HTML escaping, all translated from main.rs.
-/

namespace PubKeySite

/-- Rust char::is_whitespace: the Unicode White_Space code points. -/
def isRustWhitespace (c : Char) : Bool :=
  (0x09 ≤ c.toNat && c.toNat ≤ 0x0D) || c.toNat == 0x20 || c.toNat == 0x85 ||
    c.toNat == 0xA0 || c.toNat == 0x1680 ||
    (0x2000 ≤ c.toNat && c.toNat ≤ 0x200A) || c.toNat == 0x2028 ||
    c.toNat == 0x2029 || c.toNat == 0x202F || c.toNat == 0x205F ||
    c.toNat == 0x3000

/-- Rust char::is_control: the Unicode Cc category (C0 controls, DEL, C1 controls). -/
def isRustControl (c : Char) : Bool :=
  c.toNat ≤ 0x1F || (0x7F ≤ c.toNat && c.toNat ≤ 0x9F)

/-- UTF-8 encoded length of one scalar value, as Rust str::as_bytes counts it. -/
def charUtf8Len (c : Char) : Nat :=
  if c.toNat < 0x80 then 1
  else if c.toNat < 0x800 then 2
  else if c.toNat < 0x10000 then 3
  else 4

/-- Byte length of a string under UTF-8, i.e. Rust s.as_bytes().len(). -/
def utf8Len (cs : List Char) : Nat := (cs.map charUtf8Len).sum

/-- Rust str::trim on a character list: drop Unicode whitespace at both ends. -/
def trimL (cs : List Char) : List Char :=
  ((cs.dropWhile isRustWhitespace).reverse.dropWhile isRustWhitespace).reverse

/-- Rust str::trim().to_string(). -/
def rustTrim (s : String) : String := ⟨trimL s.data⟩

/-- Index of a character in the standard Base64 alphabet (A-Z, a-z, 0-9, +, /). -/
def b64Val (c : Char) : Option Nat :=
  if 65 ≤ c.toNat ∧ c.toNat ≤ 90 then some (c.toNat - 65)
  else if 97 ≤ c.toNat ∧ c.toNat ≤ 122 then some (c.toNat - 97 + 26)
  else if 48 ≤ c.toNat ∧ c.toNat ≤ 57 then some (c.toNat - 48 + 52)
  else if c.toNat = 43 then some 62
  else if c.toNat = 47 then some 63
  else none

/-- Decode a list of sextet values into bytes, four sextets to three bytes,
with the canonical handling of a final partial group: trailing bits must be
zero (the STANDARD engine has decode_allow_trailing_bits = false), and a
final group of one sextet is invalid. -/
def decodeQuads : List Nat → Option (List Nat)
  | [] => some []
  | [_] => none
  | [a, b] => if b % 16 = 0 then some [a * 4 + b / 16] else none
  | [a, b, c] =>
    if c % 4 = 0 then some [a * 4 + b / 16, (b % 16) * 16 + c / 4] else none
  | a :: b :: c :: d :: rest =>
    match decodeQuads rest with
    | some tail =>
      some ((a * 4 + b / 16) :: ((b % 16) * 16 + c / 4) :: ((c % 4) * 64 + d) :: tail)
    | none => none

/-- base64::engine::general_purpose::STANDARD.decode: standard alphabet,
canonical padding required (total length a multiple of four, at most two
trailing pad characters, no pad elsewhere, no whitespace skipped). -/
def base64Decode (cs : List Char) : Option (List Nat) :=
  let p := (cs.reverse.takeWhile (fun c => c == '=')).length
  let data := cs.take (cs.length - p)
  if p ≤ 2 && cs.length % 4 == 0 then
    match data.mapM b64Val with
    | some vals => decodeQuads vals
    | none => none
  else none

/-- The five ways the publish handler rejects a public key, in source order. -/
inductive KeyError where
  | empty
  | invalidChars
  | tooLong
  | notBase64
  | wrongKeyLength
deriving DecidableEq, Repr

/-- The literal 400 bodies of handle_publish for each key rejection. -/
def keyErrorMessage : KeyError → String
  | .empty => "public_key must not be empty"
  | .invalidChars => "public_key cannot contain whitespace or control characters"
  | .tooLong => "public_key must be at most 1000 bytes"
  | .notBase64 => "public_key must be valid base64"
  | .wrongKeyLength => "public_key must be base64 of a 32-byte key (ED25519)"

/-- The key-validation chain of handle_publish (main.rs lines 134-172):
trim, then reject empty, whitespace/control characters, length over 1000
bytes, invalid Base64, or a decoded length other than 32 bytes; on success
the trimmed text itself is returned. -/
def validatePublicKey (raw : String) : Except KeyError String :=
  let t := rustTrim raw
  if t.data.isEmpty then .error .empty
  else if t.data.any (fun c => isRustControl c || isRustWhitespace c) then
    .error .invalidChars
  else if 1000 < utf8Len t.data then .error .tooLong
  else
    match base64Decode t.data with
    | some bytes => if bytes.length = 32 then .ok t else .error .wrongKeyLength
    | none => .error .notBase64

/-- A row of the pub_keys table. -/
structure PubKeyRecord where
  id : String
  public_key : String
  note : Option String
deriving DecidableEq, Repr

/-- The pub_keys table as the list of its rows in insertion order. -/
abbrev Store := List PubKeyRecord

/-- The responses the two dynamic handlers produce.  Redirect::to in axum
responds 303 See Other with a Location header. -/
inductive HResponse where
  | badRequest (body : String)
  | serverError (body : String)
  | notFound (body : String)
  | redirect (location : String)
  | okHtml (body : String)
deriving DecidableEq, Repr

/-- HTTP status code of a response. -/
def HResponse.status : HResponse → Nat
  | .badRequest _ => 400
  | .serverError _ => 500
  | .notFound _ => 404
  | .redirect _ => 303
  | .okHtml _ => 200

/-- The form body of POST /publish. -/
structure PublishForm where
  public_key : String
  note : Option String
deriving DecidableEq, Repr

/-- Outcome of the sqlite INSERT, made an explicit parameter of the handler. -/
inductive StoreOutcome where
  | insertOk
  | insertErr (detail : String)
deriving DecidableEq, Repr

/-- form.note.map(trim).filter(non-empty) from handle_publish. -/
def normalizeNote (note : Option String) : Option String :=
  match note.map rustTrim with
  | some n => if n.data.isEmpty then none else some n
  | none => none

/-- handle_publish (main.rs lines 130-205).  newId stands for the freshly
generated UUID v4 string, ins for the sqlite INSERT outcome; the second
component is the table after the request. -/
def handle_publish (st : Store) (form : PublishForm) (newId : String)
    (ins : StoreOutcome) : HResponse × Store :=
  match validatePublicKey form.public_key with
  | .error e => (.badRequest (keyErrorMessage e), st)
  | .ok trimmed_key =>
    let note := normalizeNote form.note
    if note.any (fun n => 100 < utf8Len n.data) then
      (.badRequest "note must be at most 100 bytes", st)
    else
      match ins with
      | .insertErr e => (.serverError ("database error: " ++ e), st)
      | .insertOk =>
        (.redirect ("/k/" ++ newId),
          st ++ [{ id := newId, public_key := trimmed_key, note := note }])

/-- Value of one hexadecimal digit, either case. -/
def hexVal (c : Char) : Option Nat :=
  if 48 ≤ c.toNat ∧ c.toNat ≤ 57 then some (c.toNat - 48)
  else if 97 ≤ c.toNat ∧ c.toNat ≤ 102 then some (c.toNat - 97 + 10)
  else if 65 ≤ c.toNat ∧ c.toNat ≤ 70 then some (c.toNat - 65 + 10)
  else none

/-- The 8-4-4-4-12 hyphenated UUID form: 36 characters, hyphens exactly at
indices 8, 13, 18 and 23, the rest hexadecimal digits. -/
def parseHyphenated (cs : List Char) : Option (List Nat) :=
  if cs.length = 36 ∧ cs.get? 8 = some (Char.ofNat 45) ∧
      cs.get? 13 = some (Char.ofNat 45) ∧ cs.get? 18 = some (Char.ofNat 45) ∧
      cs.get? 23 = some (Char.ofNat 45) then
    (cs.take 8 ++ (cs.drop 9).take 4 ++ (cs.drop 14).take 4 ++
      (cs.drop 19).take 4 ++ cs.drop 24).mapM hexVal
  else none

/-- Uuid::parse_str of the uuid crate: the simple 32-digit form, the
hyphenated form, the braced hyphenated form, and the urn:uuid: form; hex
digits of either case.  Returns the 32 hexadecimal digit values. -/
def uuidParse (s : String) : Option (List Nat) :=
  let cs := s.data
  if cs.length = 32 then cs.mapM hexVal
  else if cs.length = 36 then parseHyphenated cs
  else if cs.length = 38 then
    if cs.head? = some (Char.ofNat 0x7B) ∧ cs.getLast? = some (Char.ofNat 0x7D) then
      parseHyphenated ((cs.drop 1).take 36)
    else none
  else if cs.length = 45 then
    if cs.take 9 = "urn:uuid:".data then parseHyphenated (cs.drop 9) else none
  else none

/-- validate_record_id (main.rs lines 367-377) as a proposition: the path
parameter parses as a UUID. -/
def validRecordId (id : String) : Bool := (uuidParse id).isSome

/-- html_escape (main.rs lines 354-365), one character at a time. -/
def escapeChar (c : Char) : List Char :=
  if c = Char.ofNat 60 then "&lt;".data
  else if c = Char.ofNat 62 then "&gt;".data
  else if c = Char.ofNat 38 then "&amp;".data
  else if c = Char.ofNat 34 then "&quot;".data
  else if c = Char.ofNat 39 then "&#39;".data
  else [c]

/-- html_escape (main.rs lines 354-365). -/
def html_escape (s : String) : String := ⟨(s.data.map escapeChar).flatten⟩

/-- The note paragraph of the record page: the escaped note, or the
placeholder when the note is absent. -/
def noteHtml (note : Option String) : String :=
  match note with
  | some n => "<p><strong>Note:</strong> " ++ html_escape n ++ "</p>"
  | none => "<p><em>No note provided.</em></p>"

/-- The shareable-link block of the record page, built around the escaped
absolute URL (main.rs lines 245-260). -/
def linkHtml (fullUrl : Option String) : String :=
  match fullUrl with
  | some url =>
    "<p><strong>Shareable link:</strong></p>\n<div style=\"display:flex; gap:0.5rem; align-items:center;\">\n  <input id=\"share-link\" type=\"text\" value=\"" ++
      html_escape url ++
      "\" readonly\n         style=\"flex:1; padding:0.4rem; background-color:#1e1e1e; color:#e0e0e0; border:1px solid #333; border-radius:4px;\">\n  <button type=\"button\" onclick=\"copyLink()\" style=\"padding:0.4rem 0.8rem; background-color:#2979ff; color:#fff; border:none; border-radius:4px; cursor:pointer;\">\n    Copy\n  </button>\n</div>\n<p style=\"font-size:0.85rem; color:#aaa;\">Click “Copy” or select the text to share this link.</p>"
  | none => ""

/-- The record-page template up to the id in the title. -/
def pageHead : String :=
  "<!doctype html>\n<html lang=\"en\">\n  <head>\n    <meta charset=\"utf-8\">\n    <title>Published Key "

/-- The record-page template between the title id and the ID line. -/
def pageAfterTitle : String :=
  "</title>\n    <style>\n      body \x7b font-family: sans-serif; max-width: 640px; margin: 2rem auto; padding: 0 1rem;\n             background-color: #121212; color: #e0e0e0; \x7d\n      code \x7b padding: 0.2rem 0.4rem; background: #1e1e1e; border-radius: 4px; \x7d\n      a \x7b color: #90caf9; \x7d\n    </style>\n  </head>\n  <body>\n    <h1>极名-公钥发布系统 Published Signing Public Key</h1>\n    <p><strong>ID:</strong> "

/-- The record-page template between the ID line and the escaped key. -/
def pageBeforeKey : String :=
  "</p>\n    <p><strong>Public key:</strong><br><code>"

/-- The record-page template between the escaped key and the note block. -/
def pageAfterKey : String := "</code></p>\n    "

/-- The record-page template tail after the link block. -/
def pageTail : String :=
  "\n    <hr>\n    <p>You can share this link with others so they can obtain your public key.</p>\n    <script>\n      function copyLink() \x7b\n        const input = document.getElementById(\x27share-link\x27);\n        if (!input) return;\n        input.select();\n        navigator.clipboard && navigator.clipboard.writeText(input.value).catch(() => \x7b\x7d);\n      \x7d\n    </script>\n  </body>\n</html>\n"

/-- build_record_page (main.rs lines 238-301): the format string with the id
interpolated twice, the key and the URL through html_escape, the note block
and the link block. -/
def build_record_page (record : PubKeyRecord) (fullUrl : Option String) : String :=
  pageHead ++ record.id ++ pageAfterTitle ++ record.id ++ pageBeforeKey ++
    html_escape record.public_key ++ pageAfterKey ++ noteHtml record.note ++
    "\n    " ++ linkHtml fullUrl ++ pageTail

/-- SELECT ... FROM pub_keys WHERE id = ?: exact text match on the stored
id (TEXT PRIMARY KEY, binary collation). -/
def lookupRecord (st : Store) (id : String) : Option PubKeyRecord :=
  st.find? (fun r => r.id == id)

/-- show_record (main.rs lines 207-236).  dbErr stands for the outcome of
the sqlite SELECT (some detail on failure); the second component is the
table after the request. -/
def show_record (st : Store) (websiteName : String) (id : String)
    (dbErr : Option String) : HResponse × Store :=
  if validRecordId id then
    match dbErr with
    | some e => (.serverError ("database error: " ++ e), st)
    | none =>
      match lookupRecord st id with
      | some r =>
        let fullUrl := "https://" ++ websiteName ++ "/k/" ++ r.id
        (.okHtml (build_record_page r (some fullUrl)), st)
      | none => (.notFound "Key not found", st)
  else (.badRequest "invalid record id (must be a UUID)", st)

/-- The store states reachable from the empty table through the two dynamic
handlers; publish is the only operation that writes rows. -/
inductive Reachable : Store → Prop
  | init : Reachable []
  | publish (st : Store) (form : PublishForm) (newId : String)
      (ins : StoreOutcome) : Reachable st →
      Reachable (handle_publish st form newId ins).2
  | view (st : Store) (websiteName id : String) (dbErr : Option String) :
      Reachable st → Reachable (show_record st websiteName id dbErr).2

/-- The property every stored public key is claimed to satisfy: non-empty,
free of whitespace and control characters, at most 1000 bytes of UTF-8, and
decoding under standard Base64 to exactly 32 bytes. -/
def storedKeyOk (k : String) : Prop :=
  k.data ≠ [] ∧
  (∀ c ∈ k.data, isRustWhitespace c = false ∧ isRustControl c = false) ∧
  utf8Len k.data ≤ 1000 ∧
  ∃ bs, base64Decode k.data = some bs ∧ bs.length = 32

/-- Everything the success branch of the key-validation chain guarantees
about the returned string. -/
theorem validatePublicKey_ok_props {raw k : String}
    (h : validatePublicKey raw = .ok k) : k = rustTrim raw ∧ storedKeyOk k := by
  unfold validatePublicKey at h
  by_cases h1 : (rustTrim raw).data.isEmpty
  · simp [h1] at h
  · rw [if_neg h1] at h
    by_cases h2 :
        (rustTrim raw).data.any (fun c => isRustControl c || isRustWhitespace c)
    · simp [h2] at h
    · rw [if_neg (by simp [h2])] at h
      by_cases h3 : 1000 < utf8Len (rustTrim raw).data
      · simp [h3] at h
      · rw [if_neg h3] at h
        cases hdec : base64Decode (rustTrim raw).data with
        | none => rw [hdec] at h; exact absurd h (by simp)
        | some bs =>
          rw [hdec] at h
          by_cases h4 : bs.length = 32
          · simp only [h4, if_true] at h
            cases h
            refine ⟨rfl, fun hnil => h1 (by simp [hnil]), ?_, by omega, bs, hdec, h4⟩
            intro c hc
            have := (List.any_eq_false.mp (Bool.not_eq_true _ ▸ h2 : _ = false)) c hc
            constructor
            · cases hw : isRustWhitespace c <;> simp [hw] at this ⊢
            · cases hw : isRustControl c <;> simp [hw] at this ⊢
          · simp [h4] at h

/-- The store after handle_publish is either unchanged or extended by one
row whose key passed validation and whose note is the normalized note. -/
theorem handle_publish_store_cases (st : Store) (form : PublishForm)
    (newId : String) (ins : StoreOutcome) :
    (handle_publish st form newId ins).2 = st ∨
    ∃ k, validatePublicKey form.public_key = .ok k ∧
      (handle_publish st form newId ins).2 =
        st ++ [{ id := newId, public_key := k, note := normalizeNote form.note }] := by
  unfold handle_publish
  cases hv : validatePublicKey form.public_key with
  | error e => left; rfl
  | ok k =>
    by_cases hn : (normalizeNote form.note).any (fun n => 100 < utf8Len n.data)
    · left; simp [hn]
    · cases ins with
      | insertErr e => left; simp [hn]
      | insertOk => right; exact ⟨k, rfl, by simp [hn]⟩

/-- show_record never changes the table. -/
theorem show_record_preserves_store (st : Store) (websiteName id : String)
    (dbErr : Option String) : (show_record st websiteName id dbErr).2 = st := by
  unfold show_record
  by_cases h : validRecordId id
  · rw [if_pos h]
    cases dbErr with
    | some e => rfl
    | none => cases lookupRecord st id <;> rfl
  · rw [if_neg h]

/-- Claim C1: in every reachable store state, every stored record's
public_key is non-empty, contains no whitespace or control characters, is
at most 1000 bytes as text, and Base64-decodes (standard alphabet) to
exactly 32 bytes; publish is the only operation that writes records. -/
theorem stored_key_invariant (st : Store) (h : Reachable st) :
    ∀ r ∈ st, storedKeyOk r.public_key := by
  induction h with
  | init => intro r hr; cases hr
  | publish st form newId ins hst ih =>
    rcases handle_publish_store_cases st form newId ins with heq | ⟨k, hk, heq⟩
    · rw [heq]; exact ih
    · rw [heq]
      intro r hr
      rcases List.mem_append.mp hr with hr | hr
      · exact ih r hr
      · rcases List.mem_singleton.mp hr with rfl
        exact (validatePublicKey_ok_props hk).2
  | view st websiteName id dbErr hst ih =>
    rw [show_record_preserves_store]; exact ih

/-- Claim C1 witness: the invariant applied to the store reached by one
successful publish of a concrete valid key, at the record it inserted. -/
theorem stored_key_invariant_witness :
    storedKeyOk "AAAAAAAAAAAAAAAAAAAAAAAAAAAAAAAAAAAAAAAAAAA=" :=
  stored_key_invariant
    (handle_publish []
      { public_key := "AAAAAAAAAAAAAAAAAAAAAAAAAAAAAAAAAAAAAAAAAAA=", note := none }
      "00000000-0000-4000-8000-000000000000" .insertOk).2
    (Reachable.publish [] _ _ _ Reachable.init)
    { id := "00000000-0000-4000-8000-000000000000",
      public_key := "AAAAAAAAAAAAAAAAAAAAAAAAAAAAAAAAAAAAAAAAAAA=", note := none }
    (by decide)

/-- Base64 text of 43 A characters and one pad: a valid 32-byte key. -/
def keyA : String := "AAAAAAAAAAAAAAAAAAAAAAAAAAAAAAAAAAAAAAAAAAA="

/-- A fixed UUID v4 string in the hyphenated form new_v4().to_string() emits. -/
def uuidA : String := "00000000-0000-4000-8000-000000000000"

/-- Claim C8: the record-display handler never modifies the store, and with
the store fixed, an immediately repeated GET /k/id returns the identical
response (in particular the same key and note content). -/
theorem show_record_read_idempotent (st : Store) (websiteName id : String)
    (dbErr : Option String) :
    (show_record st websiteName id dbErr).2 = st ∧
    show_record (show_record st websiteName id dbErr).2 websiteName id dbErr =
      show_record st websiteName id dbErr := by
  refine ⟨show_record_preserves_store st websiteName id dbErr, ?_⟩
  rw [show_record_preserves_store]

/-- Claim C3 counterexample: a submitted key consisting of a leading space
followed by a valid key contains whitespace, yet publish trims it, responds
with a redirect (not 400) and inserts a row. -/
theorem publish_leading_space_accepted :
    (handle_publish [] { public_key := " " ++ keyA, note := none } uuidA
        .insertOk).1 = .redirect ("/k/" ++ uuidA) ∧
    (handle_publish [] { public_key := " " ++ keyA, note := none } uuidA
        .insertOk).2 = [{ id := uuidA, public_key := keyA, note := none }] := by
  constructor <;> decide

/-- Claim C3 amended: whitespace or control characters that survive
trimming (anywhere in the trimmed key) make publish return 400 with the
invalid-characters message and leave the store unchanged; whitespace that
is only leading or trailing is trimmed away instead of rejected. -/
theorem publish_rejects_inner_whitespace (st : Store) (form : PublishForm)
    (newId : String) (ins : StoreOutcome)
    (h : (rustTrim form.public_key).data.any
        (fun c => isRustControl c || isRustWhitespace c) = true) :
    handle_publish st form newId ins =
      (.badRequest "public_key cannot contain whitespace or control characters",
        st) := by
  have hne : ¬(rustTrim form.public_key).data.isEmpty = true := by
    intro he
    rw [List.isEmpty_iff] at he
    rw [he] at h
    simp at h
  unfold handle_publish validatePublicKey
  rw [if_neg hne, if_pos h]
  rfl

/-- Claim C3 amended witness: a key with an interior space is rejected with
the invalid-characters message and no insertion. -/
theorem publish_rejects_inner_whitespace_witness :
    handle_publish [] { public_key := "AAA AAA", note := none } uuidA .insertOk =
      (.badRequest "public_key cannot contain whitespace or control characters",
        []) :=
  publish_rejects_inner_whitespace [] _ uuidA .insertOk (by decide)

/-- Claim C4 counterexample: on a store failure the 500 body is not a
generic message; it embeds the underlying database error text verbatim. -/
theorem store_error_detail_leaks :
    (show_record [] "example.com" uuidA (some "database is locked")).1 =
      .serverError "database error: database is locked" ∧
    List.IsInfix "database is locked".data
      "database error: database is locked".data := by
  constructor <;> decide

/-- Claim C4 amended: a store-layer failure in publish (after validation
passes) or in the record-display handler (after the id parses) yields HTTP
500 whose body is the string "database error: " followed by the underlying
database error text, so the internal detail is included in the client
body. -/
theorem store_error_response (st : Store) (form : PublishForm)
    (newId e websiteName id : String)
    (hk : ∃ k, validatePublicKey form.public_key = .ok k)
    (hn : (normalizeNote form.note).any (fun n => 100 < utf8Len n.data) = false)
    (hid : validRecordId id = true) :
    handle_publish st form newId (.insertErr e) =
      (.serverError ("database error: " ++ e), st) ∧
    show_record st websiteName id (some e) =
      (.serverError ("database error: " ++ e), st) := by
  obtain ⟨k, hk⟩ := hk
  constructor
  · unfold handle_publish
    rw [hk]
    simp [hn]
  · unfold show_record
    rw [if_pos hid]

/-- Claim C4 amended witness: a concrete failed insert and a concrete
failed select each produce the 500 body carrying the error detail. -/
theorem store_error_response_witness :
    handle_publish [] { public_key := keyA, note := none } uuidA
        (.insertErr "database is locked") =
      (.serverError ("database error: " ++ "database is locked"), []) ∧
    show_record [] "example.com" uuidA (some "database is locked") =
      (.serverError ("database error: " ++ "database is locked"), []) :=
  store_error_response [] _ uuidA "database is locked" "example.com" uuidA
    ⟨keyA, by rfl⟩ (by decide) (by decide)

/-- The whitespace-or-control test handle_publish applies to the trimmed key. -/
def hasWsOrControl (s : String) : Bool :=
  s.data.any (fun c => isRustControl c || isRustWhitespace c)

/-- Claim C5: key validation trims, then applies Empty, InvalidChars,
TooLong, NotBase64, WrongKeyLength in that order, each rule firing only
when every earlier rule passed, with the matching 400 message; any key
failure is reported before the note is examined (the 400 and untouched
store are independent of the note and of the insert outcome); on success
the trimmed string itself is stored, not a re-encoding. -/
theorem publish_validation_order (raw : String) (st : Store)
    (form : PublishForm) (newId : String) (ins : StoreOutcome) :
    ((rustTrim raw).data = [] → validatePublicKey raw = .error .empty) ∧
    ((rustTrim raw).data ≠ [] → hasWsOrControl (rustTrim raw) = true →
      validatePublicKey raw = .error .invalidChars) ∧
    ((rustTrim raw).data ≠ [] → hasWsOrControl (rustTrim raw) = false →
      1000 < utf8Len (rustTrim raw).data →
      validatePublicKey raw = .error .tooLong) ∧
    ((rustTrim raw).data ≠ [] → hasWsOrControl (rustTrim raw) = false →
      utf8Len (rustTrim raw).data ≤ 1000 →
      base64Decode (rustTrim raw).data = none →
      validatePublicKey raw = .error .notBase64) ∧
    (∀ bs, (rustTrim raw).data ≠ [] → hasWsOrControl (rustTrim raw) = false →
      utf8Len (rustTrim raw).data ≤ 1000 →
      base64Decode (rustTrim raw).data = some bs → bs.length ≠ 32 →
      validatePublicKey raw = .error .wrongKeyLength) ∧
    (∀ bs, (rustTrim raw).data ≠ [] → hasWsOrControl (rustTrim raw) = false →
      utf8Len (rustTrim raw).data ≤ 1000 →
      base64Decode (rustTrim raw).data = some bs → bs.length = 32 →
      validatePublicKey raw = .ok (rustTrim raw)) ∧
    (∀ e, validatePublicKey form.public_key = .error e →
      handle_publish st form newId ins = (.badRequest (keyErrorMessage e), st)) ∧
    (∀ k, validatePublicKey form.public_key = .ok k →
      (normalizeNote form.note).any (fun n => 100 < utf8Len n.data) = false →
      (handle_publish st form newId .insertOk).2 =
        st ++ [⟨newId, rustTrim form.public_key, normalizeNote form.note⟩]) := by
  have hne : ∀ h : (rustTrim raw).data ≠ [],
      ¬(rustTrim raw).data.isEmpty = true := by
    intro h hcontra
    exact h (List.isEmpty_iff.mp hcontra)
  refine ⟨?_, ?_, ?_, ?_, ?_, ?_, ?_, ?_⟩
  · intro h
    unfold validatePublicKey
    rw [if_pos (List.isEmpty_iff.mpr h)]
  · intro h hws
    unfold validatePublicKey
    rw [if_neg (hne h), if_pos (show ((rustTrim raw).data.any
      fun c => isRustControl c || isRustWhitespace c) = true from hws)]
  · intro h hws hlen
    unfold validatePublicKey
    rw [if_neg (hne h), if_neg (by rw [show ((rustTrim raw).data.any
      (fun c => isRustControl c || isRustWhitespace c)) = false from hws]; simp),
      if_pos hlen]
  · intro h hws hlen hdec
    unfold validatePublicKey
    rw [if_neg (hne h), if_neg (by rw [show ((rustTrim raw).data.any
      (fun c => isRustControl c || isRustWhitespace c)) = false from hws]; simp),
      if_neg (by omega), hdec]
  · intro bs h hws hlen hdec hlen32
    unfold validatePublicKey
    rw [if_neg (hne h), if_neg (by rw [show ((rustTrim raw).data.any
      (fun c => isRustControl c || isRustWhitespace c)) = false from hws]; simp),
      if_neg (by omega), hdec]
    simp [hlen32]
  · intro bs h hws hlen hdec hlen32
    unfold validatePublicKey
    rw [if_neg (hne h), if_neg (by rw [show ((rustTrim raw).data.any
      (fun c => isRustControl c || isRustWhitespace c)) = false from hws]; simp),
      if_neg (by omega), hdec]
    simp [hlen32]
  · intro e he
    unfold handle_publish
    rw [he]
  · intro k hk hnote
    have := (validatePublicKey_ok_props hk).1
    unfold handle_publish
    rw [hk]
    simp [hnote, this]

set_option maxRecDepth 8000 in
/-- Claim C5 witness: a trimmed key with an interior space that is also far
longer than 1000 bytes fails with InvalidChars, the earlier rule. -/
theorem publish_validation_order_witness :
    validatePublicKey ⟨[Char.ofNat 65, Char.ofNat 32] ++
        List.replicate 1200 (Char.ofNat 65)⟩ = .error .invalidChars :=
  (publish_validation_order ⟨[Char.ofNat 65, Char.ofNat 32] ++
      List.replicate 1200 (Char.ofNat 65)⟩ [] { public_key := "", note := none }
      uuidA .insertOk).2.1 (by decide) (by decide)

/-- Claim C6: with a valid key, the submitted note is trimmed; an empty or
all-whitespace note is stored absent; a trimmed note over 100 bytes draws
400 and no insertion whatever the insert outcome would have been; otherwise
the trimmed note is stored with the record. -/
theorem publish_note_handling (st : Store) (pk note : String)
    (newId k : String) (hk : validatePublicKey pk = .ok k) :
    (trimL note.data = [] →
      handle_publish st { public_key := pk, note := some note } newId .insertOk =
        (.redirect ("/k/" ++ newId),
          st ++ [{ id := newId, public_key := k, note := none }])) ∧
    (∀ ins, 100 < utf8Len (trimL note.data) →
      handle_publish st { public_key := pk, note := some note } newId ins =
        (.badRequest "note must be at most 100 bytes", st)) ∧
    (trimL note.data ≠ [] → utf8Len (trimL note.data) ≤ 100 →
      handle_publish st { public_key := pk, note := some note } newId .insertOk =
        (.redirect ("/k/" ++ newId),
          st ++ [{ id := newId, public_key := k, note := some (rustTrim note) }])) := by
  have hnorm : normalizeNote (some note) =
      if (rustTrim note).data.isEmpty then none else some (rustTrim note) := rfl
  refine ⟨?_, ?_, ?_⟩
  · intro h
    unfold handle_publish
    rw [hk]
    simp only [hnorm, show (rustTrim note).data = trimL note.data from rfl, h]
    simp
  · intro ins h
    unfold handle_publish
    rw [hk]
    have hemp : ¬(rustTrim note).data.isEmpty = true := by
      intro hc
      rw [show (rustTrim note).data = trimL note.data from rfl] at hc
      rw [List.isEmpty_iff.mp hc] at h
      simp [utf8Len] at h
    simp only [hnorm, if_neg hemp]
    rw [if_pos (by simpa using h)]
  · intro h hle
    unfold handle_publish
    rw [hk]
    have hemp : ¬(rustTrim note).data.isEmpty = true := by
      intro hc
      exact h (List.isEmpty_iff.mp hc)
    simp only [hnorm, if_neg hemp]
    rw [if_neg (by
      simp only [Option.any_some, decide_eq_true_eq]
      rw [show (rustTrim note).data = trimL note.data from rfl]
      omega)]

/-- Claim C6 witness: an all-whitespace note is stored absent, applied to a
concrete publish with a valid key. -/
theorem publish_note_handling_witness :
    handle_publish [] { public_key := keyA, note := some "   " } uuidA .insertOk =
      (.redirect ("/k/" ++ uuidA),
        [{ id := uuidA, public_key := keyA, note := none }]) :=
  (publish_note_handling [] keyA "   " uuidA keyA (by rfl)).1 (by decide)

/-- sub occurs contiguously inside s. -/
def strIncludes (s sub : String) : Prop := List.IsInfix sub.data s.data

/-- A string occurs inside any concatenation that surrounds it. -/
theorem strIncludes_middle (a x b : String) : strIncludes (a ++ x ++ b) x :=
  ⟨a.data, b.data, by simp [String.data_append]⟩

/-- Occurrence is preserved by appending on the right. -/
theorem strIncludes_appendL {s : String} (x : String) {t : String}
    (h : strIncludes s t) : strIncludes (s ++ x) t := by
  obtain ⟨p, q, hp⟩ := h
  exact ⟨p, q ++ x.data, by rw [String.data_append, ← hp]; simp⟩

/-- Occurrence is preserved by prepending on the left. -/
theorem strIncludes_appendR {s : String} (x : String) {t : String}
    (h : strIncludes s t) : strIncludes (x ++ s) t := by
  obtain ⟨p, q, hp⟩ := h
  exact ⟨x.data ++ p, q, by rw [String.data_append, ← hp]; simp⟩

/-- Every string occurs in itself. -/
theorem strIncludes_self (s : String) : strIncludes s s :=
  ⟨[], [], by simp⟩

/-- Occurrence is transitive. -/
theorem strIncludes_trans {a b c : String} (h1 : strIncludes a b)
    (h2 : strIncludes b c) : strIncludes a c :=
  List.IsInfix.trans h2 h1

/-- escapeChar output never holds an angle bracket, a double quote or an
apostrophe. -/
theorem escapeChar_no_markup (c : Char) :
    ∀ d ∈ escapeChar c, d ≠ Char.ofNat 60 ∧ d ≠ Char.ofNat 62 ∧
      d ≠ Char.ofNat 34 ∧ d ≠ Char.ofNat 39 := by
  unfold escapeChar
  split_ifs with h1 h2 h3 h4 h5
  · decide
  · decide
  · decide
  · decide
  · decide
  · intro d hd
    rcases List.mem_singleton.mp hd with rfl
    exact ⟨h1, h2, h4, h5⟩

/-- escapeChar keeps a character that is none of the five escaped ones. -/
theorem escapeChar_eq_self (c : Char) (h1 : c ≠ Char.ofNat 60)
    (h2 : c ≠ Char.ofNat 62) (h3 : c ≠ Char.ofNat 38) (h4 : c ≠ Char.ofNat 34)
    (h5 : c ≠ Char.ofNat 39) : escapeChar c = [c] := by
  unfold escapeChar
  rw [if_neg h1, if_neg h2, if_neg h3, if_neg h4, if_neg h5]

/-- Flattening singleton lists is the identity. -/
theorem flatten_singletons (cs : List Char) :
    (cs.map (fun c => [c])).flatten = cs := by
  induction cs with
  | nil => rfl
  | cons c cs ih => simp [ih]

/-- html_escape is the identity on strings whose characters all escape to
themselves. -/
theorem html_escape_eq_self {s : String}
    (h : ∀ c ∈ s.data, escapeChar c = [c]) : html_escape s = s := by
  unfold html_escape
  rw [List.map_congr_left h, flatten_singletons]

/-- Claim C9: html_escape output never holds an angle bracket, a double
quote or an apostrophe; each of the five escaped characters maps to its
HTML entity; html_escape is the identity on strings free of all five; and
the record page embeds the stored public_key and the note only through
html_escape. -/
theorem html_escape_correct (s : String) (r : PubKeyRecord) (u : Option String)
    (n : String) :
    (∀ d ∈ (html_escape s).data, d ≠ Char.ofNat 60 ∧ d ≠ Char.ofNat 62 ∧
      d ≠ Char.ofNat 34 ∧ d ≠ Char.ofNat 39) ∧
    escapeChar (Char.ofNat 60) = "&lt;".data ∧
    escapeChar (Char.ofNat 62) = "&gt;".data ∧
    escapeChar (Char.ofNat 38) = "&amp;".data ∧
    escapeChar (Char.ofNat 34) = "&quot;".data ∧
    escapeChar (Char.ofNat 39) = "&#39;".data ∧
    ((∀ c ∈ s.data, c ≠ Char.ofNat 60 ∧ c ≠ Char.ofNat 62 ∧ c ≠ Char.ofNat 38 ∧
      c ≠ Char.ofNat 34 ∧ c ≠ Char.ofNat 39) → html_escape s = s) ∧
    strIncludes (build_record_page r u) (html_escape r.public_key) ∧
    (r.note = some n → strIncludes (build_record_page r u) (html_escape n)) := by
  refine ⟨?_, by decide, by decide, by decide, by decide, by decide, ?_, ?_, ?_⟩
  · intro d hd
    change d ∈ (s.data.map escapeChar).flatten at hd
    rw [List.mem_flatten] at hd
    obtain ⟨l, hl, hdl⟩ := hd
    obtain ⟨c, hc, rfl⟩ := List.mem_map.mp hl
    exact escapeChar_no_markup c d hdl
  · intro h
    exact html_escape_eq_self fun c hc =>
      escapeChar_eq_self c (h c hc).1 (h c hc).2.1 (h c hc).2.2.1
        (h c hc).2.2.2.1 (h c hc).2.2.2.2
  · unfold build_record_page
    exact strIncludes_appendL _ (strIncludes_appendL _ (strIncludes_appendL _
      (strIncludes_appendL _ (strIncludes_appendL _
        (strIncludes_appendR _ (strIncludes_self _))))))
  · intro hn
    unfold build_record_page
    have hpiece : strIncludes (noteHtml r.note) (html_escape n) := by
      rw [hn]
      unfold noteHtml
      exact strIncludes_middle "<p><strong>Note:</strong> " (html_escape n) "</p>"
    refine strIncludes_trans ?_ hpiece
    exact strIncludes_appendL _ (strIncludes_appendL _ (strIncludes_appendL _
      (strIncludes_appendR _ (strIncludes_self _))))

/-- Claim C7: GET /k/id responds 400 when the id does not parse as a UUID,
404 with body "Key not found" when it parses but no row matches, and
otherwise a 200 HTML page carrying the id, the escaped key, the escaped
note (or the placeholder when the note is absent) and the escaped absolute
URL built from the configured hostname and the id. -/
theorem show_record_endpoint_cases (st : Store) (w id : String)
    (dbe : Option String) (r : PubKeyRecord) (n : String) :
    (validRecordId id = false →
      show_record st w id dbe =
        (.badRequest "invalid record id (must be a UUID)", st)) ∧
    (validRecordId id = true → lookupRecord st id = none →
      show_record st w id none = (.notFound "Key not found", st)) ∧
    (validRecordId id = true → lookupRecord st id = some r →
      show_record st w id none =
        (.okHtml (build_record_page r
          (some ("https://" ++ w ++ "/k/" ++ r.id))), st) ∧
      strIncludes (build_record_page r (some ("https://" ++ w ++ "/k/" ++ r.id)))
        r.id ∧
      strIncludes (build_record_page r (some ("https://" ++ w ++ "/k/" ++ r.id)))
        (html_escape r.public_key) ∧
      (r.note = none →
        strIncludes (build_record_page r (some ("https://" ++ w ++ "/k/" ++ r.id)))
          "<p><em>No note provided.</em></p>") ∧
      (r.note = some n →
        strIncludes (build_record_page r (some ("https://" ++ w ++ "/k/" ++ r.id)))
          (html_escape n)) ∧
      strIncludes (build_record_page r (some ("https://" ++ w ++ "/k/" ++ r.id)))
        (html_escape ("https://" ++ w ++ "/k/" ++ r.id))) := by
  refine ⟨?_, ?_, ?_⟩
  · intro h
    unfold show_record
    rw [if_neg (by rw [h]; exact Bool.false_ne_true)]
  · intro h hl
    unfold show_record
    rw [if_pos h]
    simp only [hl]
  · intro h hl
    refine ⟨?_, ?_, ?_, ?_, ?_, ?_⟩
    · unfold show_record
      rw [if_pos h]
      simp only [hl]
    · unfold build_record_page
      exact strIncludes_appendL _ (strIncludes_appendL _ (strIncludes_appendL _
        (strIncludes_appendL _ (strIncludes_appendL _ (strIncludes_appendL _
          (strIncludes_appendL _ (strIncludes_appendR _ (strIncludes_self _))))))))
    · unfold build_record_page
      exact strIncludes_appendL _ (strIncludes_appendL _ (strIncludes_appendL _
        (strIncludes_appendL _ (strIncludes_appendL _
          (strIncludes_appendR _ (strIncludes_self _))))))
    · intro hn
      unfold build_record_page
      have hpiece : strIncludes (noteHtml r.note) "<p><em>No note provided.</em></p>" := by
        rw [hn]
        exact strIncludes_self _
      refine strIncludes_trans ?_ hpiece
      exact strIncludes_appendL _ (strIncludes_appendL _ (strIncludes_appendL _
        (strIncludes_appendR _ (strIncludes_self _))))
    · intro hn
      unfold build_record_page
      have hpiece : strIncludes (noteHtml r.note) (html_escape n) := by
        rw [hn]
        exact strIncludes_middle "<p><strong>Note:</strong> " (html_escape n) "</p>"
      refine strIncludes_trans ?_ hpiece
      exact strIncludes_appendL _ (strIncludes_appendL _ (strIncludes_appendL _
        (strIncludes_appendR _ (strIncludes_self _))))
    · unfold build_record_page
      have hpiece : strIncludes (linkHtml (some ("https://" ++ w ++ "/k/" ++ r.id)))
          (html_escape ("https://" ++ w ++ "/k/" ++ r.id)) := by
        unfold linkHtml
        exact strIncludes_appendL _ (strIncludes_appendR _ (strIncludes_self _))
      refine strIncludes_trans ?_ hpiece
      exact strIncludes_appendL _ (strIncludes_appendR _ (strIncludes_self _))

/-- An id that literally is not a UUID, from the spec's own test list. -/
def badId : String := "not-a-uuid"

/-- Claim C7 witness: the 400 branch at a concrete malformed id, via the
case theorem. -/
theorem show_record_endpoint_cases_witness :
    show_record [] "example.com" badId none =
      (.badRequest "invalid record id (must be a UUID)", []) :=
  (show_record_endpoint_cases [] "example.com" badId none
    { id := uuidA, public_key := keyA, note := none } "").1 (by decide)

/-- The hyphenated lowercase spelling of one UUID. -/
def hyphenatedId : String := "aaaaaaaa-aaaa-aaaa-aaaa-aaaaaaaaaaaa"

/-- The un-hyphenated 32-character spelling of the same UUID value. -/
def simpleId : String := "aaaaaaaaaaaaaaaaaaaaaaaaaaaaaaaa"

/-- Claim C10: record lookup compares the raw path text with the stored id
text, not the parsed UUID value: the un-hyphenated spelling of a stored
id's UUID passes validate_record_id and denotes the same UUID value, yet
GET on it returns 404 Key not found while the stored spelling returns the
record. -/
theorem lookup_is_textual :
    simpleId ≠ hyphenatedId ∧
    uuidParse simpleId = uuidParse hyphenatedId ∧
    (uuidParse simpleId).isSome = true ∧
    lookupRecord [{ id := hyphenatedId, public_key := keyA, note := none }]
      hyphenatedId = some { id := hyphenatedId, public_key := keyA, note := none } ∧
    show_record [{ id := hyphenatedId, public_key := keyA, note := none }]
      "example.com" simpleId none =
      (.notFound "Key not found",
        [{ id := hyphenatedId, public_key := keyA, note := none }]) := by
  refine ⟨by decide, by decide, by decide, by decide, by decide⟩

/-- mapM over Option preserves length when it succeeds. -/
theorem mapM_some_length {α β : Type} (f : α → Option β) :
    ∀ (cs : List α) (l : List β), cs.mapM f = some l → l.length = cs.length := by
  intro cs
  induction cs with
  | nil =>
    intro l h
    simp only [List.mapM_nil, pure, Option.some_inj] at h
    simp [← h]
  | cons a t ih =>
    intro l h
    rw [List.mapM_cons] at h
    cases hf : f a with
    | none => rw [hf] at h; simp at h
    | some b =>
      rw [hf] at h
      cases ht : t.mapM f with
      | none => rw [ht] at h; simp at h
      | some bs =>
        rw [ht] at h
        simp at h
        subst h
        simp [ih bs ht]

/-- Decoding sextet groups at most doubles the byte count: four sextets give
three bytes, a final pair one byte, a final triple two bytes. -/
theorem decodeQuads_length_le :
    ∀ vals out : List Nat, decodeQuads vals = some out →
      vals.length ≤ 2 * out.length
  | [], out, h => by
    simp only [decodeQuads, Option.some_inj] at h
    simp [← h]
  | [_], out, h => by simp [decodeQuads] at h
  | [a, b], out, h => by
    unfold decodeQuads at h
    split at h
    · simp only [Option.some_inj] at h
      simp [← h]
    · simp at h
  | [a, b, c], out, h => by
    unfold decodeQuads at h
    split at h
    · simp only [Option.some_inj] at h
      simp [← h]
    · simp at h
  | a :: b :: c :: d :: rest, out, h => by
    unfold decodeQuads at h
    cases hr : decodeQuads rest with
    | none => rw [hr] at h; simp at h
    | some tail =>
      rw [hr] at h
      simp only [Option.some_inj] at h
      have ih := decodeQuads_length_le rest tail hr
      rw [← h]
      simp only [List.length_cons]
      omega

/-- A successful decode bounds the text length by twice the byte count plus
the at most two pad characters. -/
theorem base64Decode_length_le {cs : List Char} {bs : List Nat}
    (h : base64Decode cs = some bs) : cs.length ≤ 2 * bs.length + 2 := by
  unfold base64Decode at h
  by_cases hc : ((cs.reverse.takeWhile (fun c => c == '=')).length ≤ 2 ∧
      cs.length % 4 = 0)
  · rw [if_pos (by simp [hc.1, hc.2])] at h
    cases hm : (cs.take (cs.length -
        (cs.reverse.takeWhile (fun c => c == '=')).length)).mapM b64Val with
    | none => rw [hm] at h; simp at h
    | some vals =>
      rw [hm] at h
      have hvl := mapM_some_length b64Val _ vals hm
      have hq := decodeQuads_length_le vals bs h
      rw [List.length_take] at hvl
      have hp := hc.1
      omega
  · rw [if_neg (by
      intro hcontra
      simp only [Bool.and_eq_true, decide_eq_true_eq, beq_iff_eq] at hcontra
      exact hc hcontra)] at h
    simp at h

/-- Each scalar value takes at most four UTF-8 bytes. -/
theorem utf8Len_le_four (cs : List Char) : utf8Len cs ≤ 4 * cs.length := by
  induction cs with
  | nil => simp [utf8Len]
  | cons c t ih =>
    have hc : charUtf8Len c ≤ 4 := by
      unfold charUtf8Len
      split_ifs <;> omega
    simp only [utf8Len, List.map_cons, List.sum_cons, List.length_cons] at ih ⊢
    omega

/-- dropWhile does nothing when no element satisfies the predicate. -/
theorem dropWhile_eq_self_of {α : Type} {p : α → Bool} :
    ∀ cs : List α, (∀ c ∈ cs, p c = false) → cs.dropWhile p = cs := by
  intro cs h
  cases cs with
  | nil => rfl
  | cons a t =>
    rw [List.dropWhile_cons, if_neg (by simp [h a (by simp)])]

/-- Trimming does nothing to a string without whitespace. -/
theorem trimL_eq_self {cs : List Char}
    (h : ∀ c ∈ cs, isRustWhitespace c = false) : trimL cs = cs := by
  unfold trimL
  rw [dropWhile_eq_self_of cs h,
    dropWhile_eq_self_of _ (fun c hc => h c (List.mem_reverse.mp hc)),
    List.reverse_reverse]

/-- Characters of the standard Base64 alphabet, and the pad, are neither
whitespace nor control characters and escape to themselves. -/
theorem b64OrPad_props (c : Char)
    (h : (b64Val c).isSome = true ∨ c = Char.ofNat 61) :
    isRustWhitespace c = false ∧ isRustControl c = false ∧
      escapeChar c = [c] := by
  have hn : c.toNat = 43 ∨ c.toNat = 47 ∨ (48 ≤ c.toNat ∧ c.toNat ≤ 57) ∨
      (65 ≤ c.toNat ∧ c.toNat ≤ 90) ∨ (97 ≤ c.toNat ∧ c.toNat ≤ 122) ∨
      c.toNat = 61 := by
    rcases h with h | h
    · unfold b64Val at h
      split_ifs at h with h1 h2 h3 h4 h5
      · tauto
      · tauto
      · tauto
      · tauto
      · tauto
      · simp at h
    · subst h
      right; right; right; right; right
      decide
  refine ⟨?_, ?_, ?_⟩
  · simp only [isRustWhitespace, Bool.or_eq_false_iff, Bool.and_eq_false_iff,
      decide_eq_false_iff_not, not_le, beq_eq_false_iff_ne, ne_eq]
    rcases hn with h | h | h | h | h | h <;> omega
  · simp only [isRustControl, Bool.or_eq_false_iff, Bool.and_eq_false_iff,
      decide_eq_false_iff_not, not_le]
    rcases hn with h | h | h | h | h | h <;> omega
  · refine escapeChar_eq_self c ?_ ?_ ?_ ?_ ?_ <;>
      (intro he; rw [he] at hn; revert hn; decide)

/-- Building block for the success branch of key validation. -/
theorem validatePublicKey_eq_ok {K : String} {bs : List Nat}
    (htrim : rustTrim K = K) (hne : K.data ≠ [])
    (hws : (K.data.any fun c => isRustControl c || isRustWhitespace c) = false)
    (hlen : utf8Len K.data ≤ 1000)
    (hdec : base64Decode K.data = some bs) (h32 : bs.length = 32) :
    validatePublicKey K = .ok K := by
  unfold validatePublicKey
  rw [htrim]
  rw [if_neg (fun hc => hne (List.isEmpty_iff.mp hc)),
    if_neg (by rw [hws]; exact Bool.false_ne_true), if_neg (by omega), hdec]
  simp [h32]

/-- Appending a fresh record makes it the one lookup finds under its id. -/
theorem lookupRecord_append_fresh (st : Store) (rec : PubKeyRecord)
    (h : ∀ r ∈ st, r.id ≠ rec.id) :
    lookupRecord (st ++ [rec]) rec.id = some rec := by
  induction st with
  | nil => simp [lookupRecord, List.find?]
  | cons a t ih =>
    have ha : (a.id == rec.id) = false :=
      beq_eq_false_iff_ne.mpr (h a (by simp))
    unfold lookupRecord at ih ⊢
    rw [List.cons_append, List.find?_cons, ha]
    exact ih fun r hr => h r (by simp [hr])

/-- Claim C2: publishing a valid key K (standard-alphabet Base64 text, pad
included, that decodes to exactly 32 bytes) responds with a redirect to
/k/newId and inserts the record, and requesting the redirect target then
returns a 200 HTML page containing K verbatim (html_escape leaves K
unchanged) and the shareable URL https://host/k/newId, which ends in
/k/newId.  The freshness of the generated id, its acceptance by the id
check, and the benign character content of the id and the configured host
are true of every UUID new_v4().to_string() emits and every real hostname,
and appear as hypotheses. -/
theorem publish_round_trip (st : Store) (K newId w : String) (bs : List Nat)
    (hdec : base64Decode K.data = some bs) (h32 : bs.length = 32)
    (halpha : ∀ c ∈ K.data, (b64Val c).isSome = true ∨ c = Char.ofNat 61)
    (hfresh : ∀ r ∈ st, r.id ≠ newId)
    (hid : validRecordId newId = true)
    (hidclean : ∀ c ∈ newId.data, escapeChar c = [c])
    (hwclean : ∀ c ∈ w.data, escapeChar c = [c]) :
    handle_publish st { public_key := K, note := none } newId .insertOk =
      (.redirect ("/k/" ++ newId), st ++ [⟨newId, K, none⟩]) ∧
    show_record (st ++ [⟨newId, K, none⟩]) w newId none =
      (.okHtml (build_record_page ⟨newId, K, none⟩
          (some ("https://" ++ w ++ "/k/" ++ newId))),
        st ++ [⟨newId, K, none⟩]) ∧
    html_escape K = K ∧
    strIncludes (build_record_page ⟨newId, K, none⟩
      (some ("https://" ++ w ++ "/k/" ++ newId))) K ∧
    strIncludes (build_record_page ⟨newId, K, none⟩
      (some ("https://" ++ w ++ "/k/" ++ newId)))
      ("https://" ++ w ++ "/k/" ++ newId) ∧
    List.IsSuffix ("/k/" ++ newId).data
      ("https://" ++ w ++ "/k/" ++ newId).data := by
  have hchar : ∀ c ∈ K.data, isRustWhitespace c = false ∧
      isRustControl c = false ∧ escapeChar c = [c] :=
    fun c hc => b64OrPad_props c (halpha c hc)
  have hKne : K.data ≠ [] := by
    intro h0
    rw [h0, show base64Decode ([] : List Char) = some [] from rfl] at hdec
    simp only [Option.some_inj] at hdec
    rw [← hdec] at h32
    simp at h32
  have htrim : rustTrim K = K := by
    unfold rustTrim
    rw [trimL_eq_self fun c hc => (hchar c hc).1]
  have hws : (K.data.any fun c => isRustControl c || isRustWhitespace c) = false :=
    List.any_eq_false.mpr fun c hc => by
      have h := hchar c hc
      simp [h.1, h.2.1]
  have hlen1000 : utf8Len K.data ≤ 1000 := by
    have h1 := utf8Len_le_four K.data
    have h2 := base64Decode_length_le hdec
    omega
  have hvk : validatePublicKey K = .ok K :=
    validatePublicKey_eq_ok htrim hKne hws hlen1000 hdec h32
  have hesc : html_escape K = K :=
    html_escape_eq_self fun c hc => (hchar c hc).2.2
  have hurlclean : ∀ c ∈ ("https://" ++ w ++ "/k/" ++ newId).data,
      escapeChar c = [c] := by
    intro c hc
    simp only [String.data_append, List.mem_append] at hc
    rcases hc with ((hc | hc) | hc) | hc
    · revert c
      decide
    · exact hwclean c hc
    · revert c
      decide
    · exact hidclean c hc
  have hescurl : html_escape ("https://" ++ w ++ "/k/" ++ newId) =
      "https://" ++ w ++ "/k/" ++ newId := html_escape_eq_self hurlclean
  have hlook : lookupRecord (st ++ [(⟨newId, K, none⟩ : PubKeyRecord)]) newId =
      some ⟨newId, K, none⟩ :=
    lookupRecord_append_fresh st ⟨newId, K, none⟩ hfresh
  refine ⟨?_, ?_, hesc, ?_, ?_, ?_⟩
  · unfold handle_publish
    rw [hvk]
    rfl
  · unfold show_record
    rw [if_pos hid]
    simp only [hlook]
  · have hkey : strIncludes (build_record_page ⟨newId, K, none⟩
        (some ("https://" ++ w ++ "/k/" ++ newId)))
        (html_escape K) := by
      unfold build_record_page
      exact strIncludes_appendL _ (strIncludes_appendL _ (strIncludes_appendL _
        (strIncludes_appendL _ (strIncludes_appendL _
          (strIncludes_appendR _ (strIncludes_self _))))))
    rw [hesc] at hkey
    exact hkey
  · have hurl : strIncludes (build_record_page ⟨newId, K, none⟩
        (some ("https://" ++ w ++ "/k/" ++ newId)))
        (html_escape ("https://" ++ w ++ "/k/" ++ newId)) := by
      unfold build_record_page
      have hpiece : strIncludes
          (linkHtml (some ("https://" ++ w ++ "/k/" ++ newId)))
          (html_escape ("https://" ++ w ++ "/k/" ++ newId)) := by
        unfold linkHtml
        exact strIncludes_appendL _ (strIncludes_appendR _ (strIncludes_self _))
      refine strIncludes_trans ?_ hpiece
      exact strIncludes_appendL _ (strIncludes_appendR _ (strIncludes_self _))
    rw [hescurl] at hurl
    exact hurl
  · exact ⟨("https://" ++ w).data, by simp [String.data_append]⟩

/-- Claim C2 witness: the round trip at the concrete key of 43 A characters
plus pad, a fresh concrete UUID and the host example.com; stated as the
publish step's response and resulting store. -/
theorem publish_round_trip_witness :
    handle_publish [] { public_key := keyA, note := none } uuidA .insertOk =
      (.redirect ("/k/" ++ uuidA),
        [] ++ [⟨uuidA, keyA, none⟩]) :=
  (publish_round_trip [] keyA uuidA "example.com" (List.replicate 32 0)
    (by decide) (by decide) (by decide) (by decide) (by decide) (by decide)
    (by decide)).1

end PubKeySite
